import Mathlib

/-!
Formal model of `scripts/setup_dependencies.py`.

The script is a straight-line build orchestrator: it parses four command-line
options, then clones / configures / builds / installs three dependencies
(common_system, thread_system, logger_system) in a fixed order, patching the
generated `thread_system-config.cmake` between the second and third.

The model has two parts:

* a character-level model of the one regular-expression substitution the
  script performs (`re.sub(r'find_dependency\s*\(\s*fmt[^)]*\)', '# \g<0>', content)`),
  written over `List Char`;
* a shallow embedding of the script's control flow as a list of actions
  (`Act`) interpreted against a state (`St`) and an oracle (`World`) that
  supplies each external process invocation's exit status and side effects.
-/

namespace SetupDependencies

/-- Python's `\s` character class for `str` patterns (Unicode whitespace as
matched by the `re` module): ASCII whitespace plus the Unicode space
characters. -/
def isPySpace (c : Char) : Bool :=
  c == ' ' || c == '\t' || c == '\n' || c == '\r' ||
  c == '\x0b' || c == '\x0c' || c == '\x1c' || c == '\x1d' ||
  c == '\x1e' || c == '\x1f' || c == '\x85' || c == '\xa0' ||
  c == '\u1680' || (0x2000 ≤ c.toNat && c.toNat ≤ 0x200a) ||
  c == '\u2028' || c == '\u2029' || c == '\u202f' || c == '\u205f' ||
  c == '\u3000'

/-- Strip a literal off the front of a character list, returning the rest on
success (the regex engine's handling of the literal parts of the pattern). -/
def stripLit : List Char → List Char → Option (List Char)
  | [], s => some s
  | _ :: _, [] => none
  | c :: cs, d :: ds => if c = d then stripLit cs ds else none

/-- The literal `find_dependency` part of the pattern. -/
def fdLit : List Char := "find_dependency".toList

/-- The literal `fmt` part of the pattern. -/
def fmtLit : List Char := "fmt".toList

/-- Matching the pattern `find_dependency\s*\(\s*fmt[^)]*\)` at the head of
`s`.  On success, returns the matched text and the remainder of `s`.  The
pattern has no usable backtracking (each `\s*` is followed by a
non-whitespace literal and `[^)]*` is followed by `)`), so the greedy
maximal-munch parse below is exactly Python's match. -/
def matchAt (s : List Char) : Option (List Char × List Char) :=
  match stripLit fdLit s with
  | none => none
  | some r1 =>
    match r1.dropWhile isPySpace with
    | '(' :: r3 =>
      match stripLit fmtLit (r3.dropWhile isPySpace) with
      | none => none
      | some r5 =>
        match r5.dropWhile (fun c => c != ')') with
        | ')' :: r7 =>
          some (fdLit ++ r1.takeWhile isPySpace ++
                  '(' :: (r3.takeWhile isPySpace ++ (fmtLit ++
                    (r5.takeWhile (fun c => c != ')') ++ [')']))), r7)
        | _ => none
    | _ => none

/-- One scan step of `re.sub`: at each position try the pattern; on a match
emit `# ` followed by the whole match (the replacement `'# \g<0>'`) and
resume after the match, otherwise copy one character and advance.  The fuel
argument bounds the recursion; `s.length` is always enough fuel because
every step consumes at least one character. -/
def pyFmtSubAux : Nat → List Char → List Char
  | 0, s => s
  | _ + 1, [] => []
  | n + 1, c :: rest =>
    match matchAt (c :: rest) with
    | some (m, r) => '#' :: ' ' :: (m ++ pyFmtSubAux n r)
    | none => c :: pyFmtSubAux n rest

/-- The script's `re.sub(r'find_dependency\s*\(\s*fmt[^)]*\)', '# \g<0>', content)`. -/
def pyFmtSub (s : List Char) : List Char :=
  pyFmtSubAux s.length s

/-- A decomposition of the scanned text: literal (unmatched) chunks and
matched statements. -/
inductive Piece where
  | lit : List Char → Piece
  | hit : List Char → Piece
deriving DecidableEq

/-- The decomposition produced by the `re.sub` scan: same traversal as
`pyFmtSubAux`, but recording which characters were copied and which
statements were matched. -/
def subSplitAux : Nat → List Char → List Piece
  | 0, s => [Piece.lit s]
  | _ + 1, [] => []
  | n + 1, c :: rest =>
    match matchAt (c :: rest) with
    | some (m, r) => Piece.hit m :: subSplitAux n r
    | none => Piece.lit [c] :: subSplitAux n rest

/-- The match/non-match decomposition of a content string. -/
def subSplit (s : List Char) : List Piece :=
  subSplitAux s.length s

/-- Reassemble the original text from a decomposition. -/
def renderOrig : List Piece → List Char
  | [] => []
  | Piece.lit l :: ps => l ++ renderOrig ps
  | Piece.hit m :: ps => m ++ renderOrig ps

/-- Reassemble the patched text: literal chunks unchanged, each matched
statement preceded by the comment marker `# `. -/
def renderPatched : List Piece → List Char
  | [] => []
  | Piece.lit l :: ps => l ++ renderPatched ps
  | Piece.hit m :: ps => '#' :: ' ' :: (m ++ renderPatched ps)

/-- Shape of a full match of `find_dependency\s*\(\s*fmt[^)]*\)`:
the literal `find_dependency`, whitespace, `(`, whitespace, `fmt`,
arbitrary non-`)` characters, and the closing `)`. -/
def IsFmtMatch (m : List Char) : Prop :=
  ∃ w1 w2 body,
    (∀ c ∈ w1, isPySpace c = true) ∧ (∀ c ∈ w2, isPySpace c = true) ∧
    (∀ c ∈ body, c ≠ ')') ∧
    m = fdLit ++ w1 ++ '(' :: (w2 ++ (fmtLit ++ (body ++ [')'])))

/-! ### The script's state, external world, and actions

Paths are strings; the filesystem is modelled as the list of existing paths
(existence is membership), with text-file contents in a separate map.
`os.path.join` with the relative components the script uses is string
concatenation with a separator; `os.makedirs` is modelled as creating the
named directory (creation of missing ancestors is not modelled, no claim
depends on it).  External processes (`git`, `cmake`) are an oracle: the
`World` gives the exit status and the filesystem/content effect of the n-th
invocation of `run_command`. -/

/-- `os.path.join(a, b)` for the relative second components used by the script. -/
def pathJoin (a b : String) : String := a ++ "/" ++ b

/-- Whether path `p` lies strictly below directory `d`. -/
def isUnder (d p : String) : Bool := List.isPrefixOf (d.data ++ ['/']) p.data

/-- `os.path.basename`: the final path component. -/
def basename (p : String) : String :=
  String.mk ((p.data.reverse.takeWhile (fun c => c != '/')).reverse)

/-- `shutil.rmtree`: remove the directory and everything below it. -/
def rmtree (d : String) (fs : List String) : List String :=
  fs.filter (fun q => !(decide (q = d) || isUnder d q))

/-- Everything the script prints (modelled at the level the claims need). -/
inductive OutLine where
  | running : List String → OutLine
  | errorRunning : List String → Int → OutLine
  | settingUp : String → OutLine
  | setupComplete : String → OutLine
  | patching : OutLine
  | foundConfig : String → OutLine
  | warningNotFound : OutLine
  | patchedOk : OutLine
deriving DecidableEq

/-- Program state: existing paths, text-file contents, the list of external
commands issued so far (command line and working directory), and the lines
printed so far. -/
structure St where
  fs : List String
  contents : String → List Char
  trace : List (List String × String)
  out : List OutLine

/-- The environment of a run: for the n-th external command invocation, its
exit status and its effect on the filesystem and on file contents. -/
structure World where
  exit : Nat → Int
  fsEff : Nat → List String → List String
  contEff : Nat → (String → List Char) → (String → List Char)

/-- Result of running a fragment of the script: normal completion, or
process termination via `sys.exit` with the given exit code. -/
inductive Res (α : Type) where
  | ok : α → St → Res α
  | exit : Nat → St → Res α

/-- `run_command`: print the command, run it (the world applies the
invocation's side effects and reports its exit status), and on a non-zero
status print the error and `sys.exit(1)`. -/
def runCommand (w : World) (s : St) (c : List String) (cwd : String) : Res Unit :=
  let n := s.trace.length
  let s1 : St :=
    { fs := w.fsEff n s.fs, contents := w.contEff n s.contents,
      trace := s.trace ++ [(c, cwd)], out := s.out ++ [OutLine.running c] }
  if w.exit n = 0 then Res.ok () s1
  else Res.exit 1 { s1 with out := s1.out ++ [OutLine.errorRunning c (w.exit n)] }

/-- The individual steps of `main` / `setup_dependency` /
`patch_thread_system_config`. -/
inductive Act where
  | echo : OutLine → Act
  | cmd : List String → String → Act
  | cloneIfAbsent : String → String → String → String → Act
  | freshBuildDir : String → Act
  | patchConfig : String → Act

/-- Basename of the configuration file the patch step looks for. -/
def cfgName : String := "thread_system-config.cmake"

/-- The `os.walk` search in `patch_thread_system_config`: the first existing
path below `installDir` whose basename is `thread_system-config.cmake`
(the enumeration order of the walk is modelled by the order of the path
list; the claims considered depend only on the not-found case, which is
order-independent). -/
def findConfig (installDir : String) (fs : List String) : Option String :=
  fs.find? (fun p => isUnder installDir p && decide (basename p = cfgName))

/-- Execute one step against the state. -/
def execAct (w : World) (s : St) : Act → Res Unit
  | Act.echo l => Res.ok () { s with out := s.out ++ [l] }
  | Act.cmd c cwd => runCommand w s c cwd
  | Act.cloneIfAbsent repoDir url name workspaceDir =>
    if repoDir ∈ s.fs then Res.ok () s
    else runCommand w s ["git", "clone", url, name] workspaceDir
  | Act.freshBuildDir d =>
    let fs1 := if d ∈ s.fs then rmtree d s.fs else s.fs
    Res.ok () { s with fs := d :: fs1 }
  | Act.patchConfig installDir =>
    let s1 : St := { s with out := s.out ++ [OutLine.patching] }
    match findConfig installDir s1.fs with
    | none => Res.ok () { s1 with out := s1.out ++ [OutLine.warningNotFound] }
    | some p =>
      Res.ok () { s1 with
        out := s1.out ++ [OutLine.foundConfig p, OutLine.patchedOk],
        contents := fun q => if q = p then pyFmtSub (s1.contents p) else s1.contents q }

/-- Execute a list of steps, stopping at the first `sys.exit`. -/
def execActs (w : World) : List Act → St → Res Unit
  | [], s => Res.ok () s
  | a :: rest, s =>
    match execAct w s a with
    | Res.ok _ s1 => execActs w rest s1
    | Res.exit c s1 => Res.exit c s1

/-! ### The script itself -/

/-- The parsed command-line options of `main` (argparse enforces that
`--install-prefix` is present; the others have defaults). -/
structure Args where
  buildType : String
  installBase : String
  compiler : String
  osName : String

/-- The `cmake` configure invocation built in `setup_dependency`:
`["cmake", "-B", ".", "-S", ".."]` plus the non-empty configure arguments. -/
def configureCmd (cmakeArgs : List String) : List String :=
  ["cmake", "-B", ".", "-S", ".."] ++ cmakeArgs.filter (fun x => decide (x ≠ ""))

/-- The steps of `setup_dependency(name, repo_url, install_dir, build_type,
cmake_args, workspace_dir)`.  (`install_dir` is accepted and unused, exactly
as in the source.) -/
def setupDependencyActs (name url _installDir buildType : String)
    (cmakeArgs : List String) (workspaceDir : String) : List Act :=
  [Act.echo (OutLine.settingUp name),
   Act.cloneIfAbsent (pathJoin workspaceDir name) url name workspaceDir,
   Act.freshBuildDir (pathJoin (pathJoin workspaceDir name) "build"),
   Act.cmd (configureCmd cmakeArgs) (pathJoin (pathJoin workspaceDir name) "build"),
   Act.cmd ["cmake", "--build", ".", "--config", buildType, "--parallel"]
     (pathJoin (pathJoin workspaceDir name) "build"),
   Act.cmd ["cmake", "--install", ".", "--config", buildType]
     (pathJoin (pathJoin workspaceDir name) "build"),
   Act.echo (OutLine.setupComplete name)]

/-- The base CMake arguments of `main`, including the compiler pinning added
for Linux/gcc. -/
def baseCmakeArgs (a : Args) : List String :=
  ["-DCMAKE_BUILD_TYPE=" ++ a.buildType, "-DBUILD_TESTS=OFF", "-DBUILD_SAMPLES=OFF",
   "-DUSE_STD_FORMAT=ON"] ++
  (if a.osName = "Linux" ∧ a.compiler = "gcc" then
    ["-DCMAKE_C_COMPILER=gcc-13", "-DCMAKE_CXX_COMPILER=g++-13"]
  else [])

/-- `common_install = os.path.join(install_base, "common_system_install")`. -/
def commonInstall (a : Args) : String := pathJoin a.installBase "common_system_install"

/-- `thread_install = os.path.join(install_base, "thread_system_install")`. -/
def threadInstall (a : Args) : String := pathJoin a.installBase "thread_system_install"

/-- `logger_install = os.path.join(install_base, "logger_system_install")`. -/
def loggerInstall (a : Args) : String := pathJoin a.installBase "logger_system_install"

/-- The configure arguments for `common_system`. -/
def commonArgs (a : Args) : List String :=
  baseCmakeArgs a ++ ["-DCMAKE_INSTALL_PREFIX=" ++ commonInstall a]

/-- The configure arguments for `thread_system`: built with the dash-`I`
include flag, whose last element is then replaced (`thread_args[-1] = ...`)
by the slash-`I` form on Windows. -/
def threadArgs (a : Args) : List String :=
  let args0 := baseCmakeArgs a ++
    ["-DCMAKE_INSTALL_PREFIX=" ++ threadInstall a,
     "-DCMAKE_PREFIX_PATH=" ++ commonInstall a,
     "-DCMAKE_CXX_FLAGS=-I" ++ commonInstall a ++ "/include"]
  if a.osName = "Windows" then
    args0.dropLast ++ ["-DCMAKE_CXX_FLAGS=/I" ++ commonInstall a ++ "/include"]
  else args0

/-- The configure arguments for `logger_system`. -/
def loggerArgs (a : Args) : List String :=
  let args0 := baseCmakeArgs a ++
    ["-DCMAKE_INSTALL_PREFIX=" ++ loggerInstall a,
     "-DCMAKE_PREFIX_PATH=" ++ commonInstall a ++ ";" ++ threadInstall a]
  let cxxFlags :=
    if a.osName = "Windows" then
      "/I" ++ commonInstall a ++ "/include /I" ++ threadInstall a ++ "/include"
    else
      "-I" ++ commonInstall a ++ "/include -I" ++ threadInstall a ++ "/include"
  args0 ++ ["-DCMAKE_CXX_FLAGS=" ++ cxxFlags]

/-- Repository URL of `common_system`. -/
def commonUrl : String := "https://github.com/kcenon/common_system.git"

/-- Repository URL of `thread_system`. -/
def threadUrl : String := "https://github.com/kcenon/thread_system.git"

/-- Repository URL of `logger_system`. -/
def loggerUrl : String := "https://github.com/kcenon/logger_system.git"

/-- The whole of `main` after argument parsing, as a step list:
set up `common_system`, set up `thread_system`, patch its installed
configuration file, set up `logger_system`.  `cwd` is `os.getcwd()`. -/
def script (a : Args) (cwd : String) : List Act :=
  setupDependencyActs "common_system" commonUrl (commonInstall a) a.buildType
    (commonArgs a) cwd ++
  setupDependencyActs "thread_system" threadUrl (threadInstall a) a.buildType
    (threadArgs a) cwd ++
  Act.patchConfig (threadInstall a) ::
  setupDependencyActs "logger_system" loggerUrl (loggerInstall a) a.buildType
    (loggerArgs a) cwd

/-- The initial state of a run. -/
def initSt (fs0 : List String) (c0 : String → List Char) : St :=
  { fs := fs0, contents := c0, trace := [], out := [] }

/-- A complete run of the script. -/
def runMain (w : World) (a : Args) (cwd : String) (fs0 : List String)
    (c0 : String → List Char) : Res Unit :=
  execActs w (script a cwd) (initSt fs0 c0)

/-- The process exit code of a run: `0` if `main` returns, else the code
passed to `sys.exit`. -/
def mainExit (w : World) (a : Args) (cwd : String) (fs0 : List String)
    (c0 : String → List Char) : Nat :=
  match runMain w a cwd fs0 c0 with
  | Res.ok _ _ => 0
  | Res.exit c _ => c

/-! ### Trace predicates and concrete fixtures -/

/-- All external commands with invocation index in `[a, b)` exited with
status `0`. -/
def TraceOk (w : World) (a b : Nat) : Prop :=
  ∀ i, a ≤ i → i < b → w.exit i = 0

/-- A world in which every external command succeeds and has no effect. -/
def wOk : World :=
  { exit := fun _ => 0, fsEff := fun _ fs => fs, contEff := fun _ c => c }

/-- An empty content map. -/
def emptyContents : String → List Char := fun _ => []

/-- Arguments of a Linux/gcc run. -/
def aLin : Args :=
  { buildType := "Release", installBase := "/inst", compiler := "gcc", osName := "Linux" }

/-- Arguments of a Windows run. -/
def aWin : Args :=
  { buildType := "Debug", installBase := "/inst", compiler := "msvc", osName := "Windows" }

/-- Arguments of a macOS/clang run. -/
def aMac : Args :=
  { buildType := "Release", installBase := "/inst", compiler := "clang", osName := "Darwin" }

/-- A starting state with an empty filesystem. -/
def stEmpty : St := initSt [] emptyContents

/-- A state in which the thread_system checkout already exists. -/
def stClone : St :=
  { fs := ["/w/thread_system"], contents := emptyContents, trace := [], out := [] }

/-- A state with a stale build directory containing an old object file. -/
def stBuild : St :=
  { fs := ["/w/thread_system", "/w/thread_system/build", "/w/thread_system/build/old.o"],
    contents := emptyContents, trace := [], out := [] }

/-- A config-file content with one `find_dependency(fmt ...)` statement. -/
def sampleContent : List Char :=
  ("include(CMakeFindDependencyMacro)\nfind_dependency(fmt REQUIRED)\nfind_dependency(Threads)\n").toList

/-- The matched statement inside `sampleContent`. -/
def sampleHit : List Char := "find_dependency(fmt REQUIRED)".toList

/-- A config-file content with no `find_dependency(fmt ...)` statement. -/
def sampleNoHit : List Char := "include(Threads)\nfind_dependency(Threads)\n".toList

/-! ### Theorems about the regular-expression substitution -/

theorem stripLit_append : ∀ {lit s r : List Char}, stripLit lit s = some r → s = lit ++ r
  | [], s, r, h => by
    simp only [stripLit, Option.some.injEq] at h
    simp [h]
  | c :: cs, [], r, h => by simp [stripLit] at h
  | c :: cs, d :: ds, r, h => by
    simp only [stripLit] at h
    split at h
    next hcd =>
      have ih := stripLit_append h
      simp [ih, hcd]
    next => exact Option.noConfusion h

theorem matchAt_some {s m r : List Char} (h : matchAt s = some (m, r)) :
    s = m ++ r ∧ IsFmtMatch m := by
  unfold matchAt at h
  split at h
  · exact Option.noConfusion h
  next r1 h1 =>
    split at h
    next r3 h2 =>
      split at h
      · exact Option.noConfusion h
      next r5 h3 =>
        split at h
        next r7 h4 =>
          injection h with h5
          injection h5 with hm hr
          have hs1 : s = fdLit ++ r1 := stripLit_append h1
          have hr1 : r1.takeWhile isPySpace ++ ('(' :: r3) = r1 := by
            rw [← h2]
            exact List.takeWhile_append_dropWhile isPySpace r1
          have hr3 : r3.takeWhile isPySpace ++ (fmtLit ++ r5) = r3 := by
            rw [← stripLit_append h3]
            exact List.takeWhile_append_dropWhile isPySpace r3
          have hr5 : r5.takeWhile (fun c => c != ')') ++ (')' :: r7) = r5 := by
            rw [← h4]
            exact List.takeWhile_append_dropWhile (fun c => c != ')') r5
          constructor
          · calc s = fdLit ++ r1 := hs1
              _ = fdLit ++ (r1.takeWhile isPySpace ++ ('(' :: r3)) := by rw [hr1]
              _ = fdLit ++ (r1.takeWhile isPySpace ++
                    ('(' :: (r3.takeWhile isPySpace ++ (fmtLit ++ r5)))) := by rw [hr3]
              _ = fdLit ++ (r1.takeWhile isPySpace ++
                    ('(' :: (r3.takeWhile isPySpace ++ (fmtLit ++
                      (r5.takeWhile (fun c => c != ')') ++ (')' :: r7)))))) := by rw [hr5]
              _ = m ++ r := by rw [← hm, ← hr]; simp
          · refine ⟨r1.takeWhile isPySpace, r3.takeWhile isPySpace,
              r5.takeWhile (fun c => c != ')'), ?_, ?_, ?_, ?_⟩
            · exact fun c hc => List.mem_takeWhile_imp hc
            · exact fun c hc => List.mem_takeWhile_imp hc
            · intro c hc
              simpa using List.mem_takeWhile_imp hc
            · exact hm.symm
        · exact Option.noConfusion h
    · exact Option.noConfusion h

theorem fdLit_length : fdLit.length = 15 := rfl

theorem matchAt_rest_lt {s m r : List Char} (h : matchAt s = some (m, r)) :
    r.length < s.length := by
  obtain ⟨hs, w1, w2, body, -, -, -, hm⟩ := matchAt_some h
  have h1 : s.length = m.length + r.length := by rw [hs]; simp
  have h2 : 15 ≤ m.length := by
    rw [hm]
    simp [fdLit_length]
  omega

theorem renderOrig_subSplitAux : ∀ (n : Nat) (s : List Char),
    renderOrig (subSplitAux n s) = s
  | 0, s => by simp [subSplitAux, renderOrig]
  | _ + 1, [] => by simp [subSplitAux, renderOrig]
  | n + 1, c :: rest => by
    cases h : matchAt (c :: rest) with
    | none => simp [subSplitAux, h, renderOrig, renderOrig_subSplitAux n rest]
    | some mr =>
      obtain ⟨m, r⟩ := mr
      have hs := (matchAt_some h).1
      simp [subSplitAux, h, renderOrig, renderOrig_subSplitAux n r, ← hs]

theorem renderPatched_subSplitAux : ∀ (n : Nat) (s : List Char),
    renderPatched (subSplitAux n s) = pyFmtSubAux n s
  | 0, s => by simp [subSplitAux, renderPatched, pyFmtSubAux]
  | _ + 1, [] => by simp [subSplitAux, renderPatched, pyFmtSubAux]
  | n + 1, c :: rest => by
    cases h : matchAt (c :: rest) with
    | none =>
      simp [subSplitAux, pyFmtSubAux, h, renderPatched, renderPatched_subSplitAux n rest]
    | some mr =>
      obtain ⟨m, r⟩ := mr
      simp [subSplitAux, pyFmtSubAux, h, renderPatched, renderPatched_subSplitAux n r]

theorem hit_mem_subSplitAux : ∀ (n : Nat) (s m : List Char),
    Piece.hit m ∈ subSplitAux n s → IsFmtMatch m
  | 0, s, m, h => by simp [subSplitAux] at h
  | _ + 1, [], m, h => by simp [subSplitAux] at h
  | n + 1, c :: rest, m, h => by
    cases hm : matchAt (c :: rest) with
    | none =>
      simp only [subSplitAux, hm] at h
      rcases List.mem_cons.mp h with h' | h'
      · exact absurd h' (by simp)
      · exact hit_mem_subSplitAux n rest m h'
    | some mr =>
      obtain ⟨m', r⟩ := mr
      simp only [subSplitAux, hm] at h
      rcases List.mem_cons.mp h with h' | h'
      · have hmm : m = m' := by injection h'
        subst hmm
        exact (matchAt_some hm).2
      · exact hit_mem_subSplitAux n r m h'

theorem pyFmtSubAux_eq_self : ∀ (n : Nat) (s : List Char),
    (∀ i, i < s.length → matchAt (s.drop i) = none) → pyFmtSubAux n s = s
  | 0, s, _ => rfl
  | _ + 1, [], _ => rfl
  | n + 1, c :: rest, h => by
    have h0 : matchAt (c :: rest) = none := h 0 (by simp)
    have ih := pyFmtSubAux_eq_self n rest (fun i hi => h (i + 1) (by simpa using hi))
    simp [pyFmtSubAux, h0, ih]

/-- The fuel used by `pyFmtSub` is irrelevant once it is at least the length
of the input, so `pyFmtSub` is the total scan of `re.sub`. -/
theorem pyFmtSubAux_fuel : ∀ (n k : Nat) (s : List Char),
    s.length ≤ n → s.length ≤ k → pyFmtSubAux n s = pyFmtSubAux k s
  | 0, k, s, hn, _ => by
    have hz : s = [] := List.eq_nil_of_length_eq_zero (Nat.le_zero.mp hn)
    subst hz
    cases k <;> rfl
  | _ + 1, k, [], _, _ => by cases k <;> rfl
  | n + 1, k, c :: rest, hn, hk => by
    cases k with
    | zero => simp at hk
    | succ k' =>
      have hn' : rest.length + 1 ≤ n + 1 := by simpa using hn
      have hk' : rest.length + 1 ≤ k' + 1 := by simpa using hk
      cases h : matchAt (c :: rest) with
      | none =>
        have ih := pyFmtSubAux_fuel n k' rest (by omega) (by omega)
        simp [pyFmtSubAux, h, ih]
      | some mr =>
        obtain ⟨m, r⟩ := mr
        have hlt : r.length < rest.length + 1 := by simpa using matchAt_rest_lt h
        have ih := pyFmtSubAux_fuel n k' r (by omega) (by omega)
        simp [pyFmtSubAux, h, ih]


/-! ### Theorems about the interpreter -/

theorem traceOk_of_ge {w : World} {a b : Nat} (h : b ≤ a) : TraceOk w a b :=
  fun _ hai hib => absurd (Nat.lt_of_lt_of_le hib h) (Nat.not_lt.mpr hai)

theorem traceOk_trans {w : World} {a b c : Nat}
    (h1 : TraceOk w a b) (h2 : TraceOk w b c) : TraceOk w a c := by
  intro i hai hic
  by_cases hib : i < b
  · exact h1 i hai hib
  · exact h2 i (Nat.le_of_not_lt hib) hic

theorem runCommand_ok (w : World) (s : St) (c : List String) (cw : String)
    (h : w.exit s.trace.length = 0) :
    runCommand w s c cw = Res.ok ()
      { fs := w.fsEff s.trace.length s.fs, contents := w.contEff s.trace.length s.contents,
        trace := s.trace ++ [(c, cw)], out := s.out ++ [OutLine.running c] } := by
  simp [runCommand, h]

theorem runCommand_fail (w : World) (s : St) (c : List String) (cw : String)
    (h : ¬ w.exit s.trace.length = 0) :
    runCommand w s c cw = Res.exit 1
      { fs := w.fsEff s.trace.length s.fs, contents := w.contEff s.trace.length s.contents,
        trace := s.trace ++ [(c, cw)],
        out := (s.out ++ [OutLine.running c]) ++
          [OutLine.errorRunning c (w.exit s.trace.length)] } := by
  simp [runCommand, h]

theorem runCommand_spec (w : World) (s : St) (c : List String) (cw : String) :
    (∃ s', runCommand w s c cw = Res.ok () s' ∧ s'.trace = s.trace ++ [(c, cw)] ∧
       w.exit s.trace.length = 0)
  ∨ (∃ s', runCommand w s c cw = Res.exit 1 s' ∧ s'.trace = s.trace ++ [(c, cw)] ∧
       w.exit s.trace.length ≠ 0 ∧
       s'.out.getLast? = some (OutLine.errorRunning c (w.exit s.trace.length))) := by
  by_cases h : w.exit s.trace.length = 0
  · exact Or.inl ⟨_, runCommand_ok w s c cw h, rfl, h⟩
  · refine Or.inr ⟨_, runCommand_fail w s c cw h, rfl, h, ?_⟩
    exact List.getLast?_concat _

theorem execAct_spec (w : World) (s : St) (act : Act) :
    (∃ s', execAct w s act = Res.ok () s' ∧ s.trace <+: s'.trace ∧
       TraceOk w s.trace.length s'.trace.length)
  ∨ (∃ s' c cw, execAct w s act = Res.exit 1 s' ∧ s'.trace = s.trace ++ [(c, cw)] ∧
       w.exit s.trace.length ≠ 0 ∧
       s'.out.getLast? = some (OutLine.errorRunning c (w.exit s.trace.length))) := by
  have hcmd : ∀ (c : List String) (cw : String),
      (∃ s', runCommand w s c cw = Res.ok () s' ∧ s.trace <+: s'.trace ∧
         TraceOk w s.trace.length s'.trace.length)
    ∨ (∃ s' c' cw', runCommand w s c cw = Res.exit 1 s' ∧
         s'.trace = s.trace ++ [(c', cw')] ∧ w.exit s.trace.length ≠ 0 ∧
         s'.out.getLast? = some (OutLine.errorRunning c' (w.exit s.trace.length))) := by
    intro c cw
    rcases runCommand_spec w s c cw with ⟨s', he, ht, hz⟩ | ⟨s', he, ht, hnz, hl⟩
    · refine Or.inl ⟨s', he, ?_, ?_⟩
      · rw [ht]; exact List.prefix_append _ _
      · intro i h1 h2
        rw [ht] at h2
        simp at h2
        have : i = s.trace.length := by omega
        rwa [this]
    · exact Or.inr ⟨s', c, cw, he, ht, hnz, hl⟩
  cases act with
  | echo l =>
    exact Or.inl ⟨_, rfl, List.prefix_rfl, traceOk_of_ge (Nat.le_refl _)⟩
  | cmd c cw => exact hcmd c cw
  | cloneIfAbsent repoDir url name workspaceDir =>
    by_cases hmem : repoDir ∈ s.fs
    · refine Or.inl ⟨s, ?_, List.prefix_rfl, traceOk_of_ge (Nat.le_refl _)⟩
      simp [execAct, hmem]
    · have : execAct w s (Act.cloneIfAbsent repoDir url name workspaceDir) =
          runCommand w s ["git", "clone", url, name] workspaceDir := by
        simp [execAct, hmem]
      rw [this]
      exact hcmd _ _
  | freshBuildDir d =>
    exact Or.inl ⟨_, rfl, List.prefix_rfl, traceOk_of_ge (Nat.le_refl _)⟩
  | patchConfig installDir =>
    cases hf : findConfig installDir s.fs with
    | none =>
      refine Or.inl ⟨{ s with out := s.out ++ [OutLine.patching] ++ [OutLine.warningNotFound] },
        ?_, List.prefix_rfl, traceOk_of_ge (Nat.le_refl _)⟩
      simp only [execAct]
      rw [hf]
    | some p =>
      refine Or.inl ⟨{ s with
          contents := fun q => if q = p then pyFmtSub (s.contents p) else s.contents q,
          out := s.out ++ [OutLine.patching] ++ [OutLine.foundConfig p, OutLine.patchedOk] },
        ?_, List.prefix_rfl, traceOk_of_ge (Nat.le_refl _)⟩
      simp only [execAct]
      rw [hf]

theorem execActs_spec (w : World) : ∀ (acts : List Act) (s : St),
    (∃ s', execActs w acts s = Res.ok () s' ∧ s.trace <+: s'.trace ∧
       TraceOk w s.trace.length s'.trace.length)
  ∨ (∃ s' c cw, execActs w acts s = Res.exit 1 s' ∧
       s.trace.length < s'.trace.length ∧ s'.trace.getLast? = some (c, cw) ∧
       w.exit (s'.trace.length - 1) ≠ 0 ∧
       s'.out.getLast? = some (OutLine.errorRunning c (w.exit (s'.trace.length - 1))) ∧
       TraceOk w s.trace.length (s'.trace.length - 1))
  | [], s => Or.inl ⟨s, rfl, List.prefix_rfl, traceOk_of_ge (Nat.le_refl _)⟩
  | a :: rest, s => by
    rcases execAct_spec w s a with ⟨s1, he, hp, hok⟩ | ⟨s1, c, cw, he, ht, hnz, hl⟩
    · have hstep : execActs w (a :: rest) s = execActs w rest s1 := by
        simp [execActs, he]
      rcases execActs_spec w rest s1 with ⟨s', he2, hp2, hok2⟩ |
        ⟨s', c, cw, he2, hlen, hlast, hnz, hl, hok2⟩
      · refine Or.inl ⟨s', by rw [hstep, he2], hp.trans hp2, ?_⟩
        exact traceOk_trans hok hok2
      · refine Or.inr ⟨s', c, cw, by rw [hstep, he2], ?_, hlast, hnz, hl, ?_⟩
        · exact Nat.lt_of_le_of_lt hp.length_le hlen
        · exact traceOk_trans hok hok2
    · have hstep : execActs w (a :: rest) s = Res.exit 1 s1 := by
        simp [execActs, he]
      refine Or.inr ⟨s1, c, cw, hstep, ?_, ?_, ?_, ?_, ?_⟩
      · rw [ht]; simp
      · rw [ht]; exact List.getLast?_concat _
      · rw [ht]; simpa using hnz
      · rw [ht]; simpa using hl
      · rw [ht]; simp; exact traceOk_of_ge (Nat.le_refl _)

theorem execActs_append (w : World) (l1 l2 : List Act) (s : St) :
    execActs w (l1 ++ l2) s =
      match execActs w l1 s with
      | Res.ok _ s1 => execActs w l2 s1
      | Res.exit c s1 => Res.exit c s1 := by
  induction l1 generalizing s with
  | nil => simp [execActs]
  | cons a l ih =>
    simp only [List.cons_append, execActs]
    cases execAct w s a with
    | ok u s1 => exact ih s1
    | exit c s1 => rfl

theorem execActs_all_ok (w : World) (hall : ∀ n, w.exit n = 0) :
    ∀ (acts : List Act) (s : St), ∃ s', execActs w acts s = Res.ok () s'
  | [], s => ⟨s, rfl⟩
  | a :: rest, s => by
    rcases execAct_spec w s a with ⟨s1, he, -, -⟩ | ⟨s1, c, cw, he, ht, hnz, hl⟩
    · obtain ⟨s', he2⟩ := execActs_all_ok w hall rest s1
      exact ⟨s', by simp [execActs, he, he2]⟩
    · exact absurd (hall s.trace.length) hnz

/-! ### String helpers -/

theorem ne_of_data_ne {s t : String} (h : s.data ≠ t.data) : s ≠ t :=
  fun hc => h (congrArg String.data hc)

theorem dataPrefix_append (p q : String) : p.data <+: (p ++ q).data := by
  rw [String.data_append]
  exact List.prefix_append _ _

theorem flag_ne_prefixed (f p x : String) (hn : ¬ p.data <+: f.data) : f ≠ p ++ x := by
  intro hc
  apply hn
  rw [hc]
  exact dataPrefix_append p x

theorem flag_ne_prefixed2 (f p x y : String) (hn : ¬ p.data <+: f.data) :
    f ≠ p ++ x ++ y := by
  intro hc
  apply hn
  rw [hc]
  exact (dataPrefix_append p x).trans (dataPrefix_append (p ++ x) y)

theorem flag_ne_prefixed3 (f p x y z : String) (hn : ¬ p.data <+: f.data) :
    f ≠ p ++ x ++ y ++ z := by
  intro hc
  apply hn
  rw [hc]
  exact ((dataPrefix_append p x).trans (dataPrefix_append (p ++ x) y)).trans
    (dataPrefix_append (p ++ x ++ y) z)

theorem str_ne_empty_of_dataPrefix {p s : String} (hp : p.data <+: s.data)
    (h : p.data ≠ []) : s ≠ "" := by
  intro hc
  apply h
  rw [hc] at hp
  exact List.prefix_nil.mp hp

theorem str_append_ne_empty (p q : String) (h : p.data ≠ []) : p ++ q ≠ "" := by
  apply ne_of_data_ne
  rw [String.data_append]
  intro hc
  rcases List.append_eq_nil.mp hc with ⟨h1, -⟩
  exact h h1

theorem isUnder_self_false (d : String) : ¬ isUnder d d = true := by
  intro h
  rw [isUnder] at h
  have hp := List.isPrefixOf_iff_prefix.mp h
  have hlen := hp.length_le
  simp at hlen

/-- `baseCmakeArgs` without the Linux/gcc pinning. -/
theorem baseCmakeArgs_of_not (a : Args) (h : ¬(a.osName = "Linux" ∧ a.compiler = "gcc")) :
    baseCmakeArgs a = ["-DCMAKE_BUILD_TYPE=" ++ a.buildType, "-DBUILD_TESTS=OFF",
      "-DBUILD_SAMPLES=OFF", "-DUSE_STD_FORMAT=ON"] := by
  simp [baseCmakeArgs, h]

/-! ### The claims -/

/-- C1: every external command invocation that returns a non-zero exit
status makes the script print the error and terminate immediately with exit
code 1 (the failing command is the last one issued, all earlier ones
succeeded, and the last printed line is the error); if every invocation
succeeds the script terminates with exit code 0. -/
theorem claimC01 (w : World) (a : Args) (cwd : String) (fs0 : List String)
    (c0 : String → List Char) :
    ((∀ n, w.exit n = 0) → mainExit w a cwd fs0 c0 = 0) ∧
    (∀ c s', runMain w a cwd fs0 c0 = Res.exit c s' →
      c = 1 ∧ mainExit w a cwd fs0 c0 = 1 ∧
      ∃ cm cw, s'.trace.getLast? = some (cm, cw) ∧
        w.exit (s'.trace.length - 1) ≠ 0 ∧
        s'.out.getLast? = some (OutLine.errorRunning cm (w.exit (s'.trace.length - 1))) ∧
        ∀ i, i < s'.trace.length - 1 → w.exit i = 0) := by
  constructor
  · intro hall
    obtain ⟨s', hs'⟩ := execActs_all_ok w hall (script a cwd) (initSt fs0 c0)
    simp [mainExit, runMain, hs']
  · intro c s' hrun
    rcases execActs_spec w (script a cwd) (initSt fs0 c0) with ⟨s1, he, -, -⟩ |
      ⟨s1, cm, cw, he, hlen, hlast, hnz, hl, hok⟩
    · rw [runMain, he] at hrun
      exact Res.noConfusion hrun
    · rw [runMain, he] at hrun
      injection hrun with hc hs
      subst hs
      refine ⟨hc.symm, ?_, cm, cw, hlast, hnz, hl, ?_⟩
      · simp [mainExit, runMain, he]
      · exact fun i hi => hok i (Nat.zero_le i) hi

/-- C1 witness: with an all-successful world the run exits with code 0. -/
theorem claimC01W : mainExit wOk aLin "/w" [] emptyContents = 0 :=
  (claimC01 wOk aLin "/w" [] emptyContents).1 (fun _ => rfl)

/-- C2: when no file named `thread_system-config.cmake` exists under the
thread install tree, the patch step only prints the patching banner and the
warning and completes normally, and execution proceeds directly into the
logger_system setup steps. -/
theorem claimC02 (w : World) (a : Args) (cwd : String) (s : St)
    (hnone : ∀ p ∈ s.fs, ¬(isUnder (threadInstall a) p = true ∧ basename p = cfgName)) :
    execAct w s (Act.patchConfig (threadInstall a)) =
      Res.ok () { s with out := s.out ++ [OutLine.patching] ++ [OutLine.warningNotFound] } ∧
    execActs w (Act.patchConfig (threadInstall a) ::
        setupDependencyActs "logger_system" loggerUrl (loggerInstall a) a.buildType
          (loggerArgs a) cwd) s =
      execActs w (setupDependencyActs "logger_system" loggerUrl (loggerInstall a) a.buildType
          (loggerArgs a) cwd)
        { s with out := s.out ++ [OutLine.patching] ++ [OutLine.warningNotFound] } := by
  have hfind : findConfig (threadInstall a) s.fs = none := by
    rw [findConfig, List.find?_eq_none]
    intro p hp hpred
    simp only [Bool.and_eq_true, decide_eq_true_eq] at hpred
    exact hnone p hp hpred
  have hact : execAct w s (Act.patchConfig (threadInstall a)) =
      Res.ok () { s with out := s.out ++ [OutLine.patching] ++ [OutLine.warningNotFound] } := by
    simp only [execAct]
    rw [hfind]
  exact ⟨hact, by simp [execActs, hact]⟩

/-- C2 witness: on an empty filesystem the patch warns and the run
continues into the logger steps. -/
theorem claimC02W :
    execAct wOk stEmpty (Act.patchConfig (threadInstall aLin)) =
      Res.ok () { stEmpty with
        out := stEmpty.out ++ [OutLine.patching] ++ [OutLine.warningNotFound] } ∧
    execActs wOk (Act.patchConfig (threadInstall aLin) ::
        setupDependencyActs "logger_system" loggerUrl (loggerInstall aLin) aLin.buildType
          (loggerArgs aLin) "/w") stEmpty =
      execActs wOk (setupDependencyActs "logger_system" loggerUrl (loggerInstall aLin)
          aLin.buildType (loggerArgs aLin) "/w")
        { stEmpty with
          out := stEmpty.out ++ [OutLine.patching] ++ [OutLine.warningNotFound] } :=
  claimC02 wOk aLin "/w" stEmpty (by decide)

/-- C3: the patch leaves the decomposition of the content invariant
(`renderOrig`), rewrites each matched `find_dependency(fmt ...)` statement
to `# ` followed by the original statement verbatim (`renderPatched`), and
every matched statement really has the `find_dependency \s* ( \s* fmt
[^)]* )` shape. -/
theorem claimC03 (s : List Char) :
    renderOrig (subSplit s) = s ∧
    pyFmtSub s = renderPatched (subSplit s) ∧
    ∀ m, Piece.hit m ∈ subSplit s → IsFmtMatch m :=
  ⟨renderOrig_subSplitAux s.length s,
   (renderPatched_subSplitAux s.length s).symm,
   fun m hm => hit_mem_subSplitAux s.length s m hm⟩

/-- C3 witness: a concrete content containing `find_dependency(fmt REQUIRED)`. -/
theorem claimC03W :
    IsFmtMatch sampleHit ∧ pyFmtSub sampleContent = renderPatched (subSplit sampleContent) :=
  ⟨(claimC03 sampleContent).2.2 sampleHit (by decide), (claimC03 sampleContent).2.1⟩

/-- C4: the `CMAKE_CXX_FLAGS` include arguments of the thread and logger
configure argument lists use the `/I` form exactly when `--os` is
`Windows`, and the `-I` form otherwise. -/
theorem claimC04 (a : Args) :
    (a.osName = "Windows" →
      (threadArgs a).getLast? =
        some ("-DCMAKE_CXX_FLAGS=/I" ++ commonInstall a ++ "/include") ∧
      (loggerArgs a).getLast? = some ("-DCMAKE_CXX_FLAGS=" ++
        ("/I" ++ commonInstall a ++ "/include /I" ++ threadInstall a ++ "/include"))) ∧
    (a.osName ≠ "Windows" →
      (threadArgs a).getLast? =
        some ("-DCMAKE_CXX_FLAGS=-I" ++ commonInstall a ++ "/include") ∧
      (loggerArgs a).getLast? = some ("-DCMAKE_CXX_FLAGS=" ++
        ("-I" ++ commonInstall a ++ "/include -I" ++ threadInstall a ++ "/include"))) := by
  constructor
  · intro hw
    constructor
    · simp [threadArgs, hw]
    · simp [loggerArgs, hw]
  · intro hw
    constructor
    · simp [threadArgs, hw]
    · simp [loggerArgs, hw]

/-- C4 witness: the Windows and Darwin instantiations. -/
theorem claimC04W :
    ((threadArgs aWin).getLast? =
        some ("-DCMAKE_CXX_FLAGS=/I" ++ commonInstall aWin ++ "/include") ∧
      (loggerArgs aWin).getLast? = some ("-DCMAKE_CXX_FLAGS=" ++
        ("/I" ++ commonInstall aWin ++ "/include /I" ++ threadInstall aWin ++ "/include"))) ∧
    ((threadArgs aMac).getLast? =
        some ("-DCMAKE_CXX_FLAGS=-I" ++ commonInstall aMac ++ "/include") ∧
      (loggerArgs aMac).getLast? = some ("-DCMAKE_CXX_FLAGS=" ++
        ("-I" ++ commonInstall aMac ++ "/include -I" ++ threadInstall aMac ++ "/include"))) :=
  ⟨(claimC04 aWin).1 rfl, (claimC04 aMac).2 (by decide)⟩

/-- C5: the logger configure argument list contains the
`-DCMAKE_PREFIX_PATH=` flag listing the common install directory and then
the thread install directory, and the flag survives the non-empty filter
into the actual cmake configure command. -/
theorem claimC05 (a : Args) :
    ("-DCMAKE_PREFIX_PATH=" ++ commonInstall a ++ ";" ++ threadInstall a) ∈ loggerArgs a ∧
    ("-DCMAKE_PREFIX_PATH=" ++ commonInstall a ++ ";" ++ threadInstall a) ∈
      configureCmd (loggerArgs a) := by
  have h1 : ("-DCMAKE_PREFIX_PATH=" ++ commonInstall a ++ ";" ++ threadInstall a) ∈
      loggerArgs a := by
    simp [loggerArgs]
  have hne : ("-DCMAKE_PREFIX_PATH=" ++ commonInstall a ++ ";" ++ threadInstall a) ≠ "" :=
    str_ne_empty_of_dataPrefix
      (((dataPrefix_append "-DCMAKE_PREFIX_PATH=" (commonInstall a)).trans
        (dataPrefix_append _ ";")).trans (dataPrefix_append _ (threadInstall a)))
      (by decide)
  refine ⟨h1, ?_⟩
  rw [configureCmd]
  rw [List.mem_append]
  right
  rw [List.mem_filter]
  exact ⟨h1, by simp [hne]⟩

/-- C6: the script is exactly the common_system steps, then the
thread_system steps, then the configuration patch, then the logger_system
steps; and executing an appended step list runs the second part only from
the state in which the whole first part completed normally (so no later
step runs before every earlier step has finished). -/
theorem claimC06 (w : World) (a : Args) (cwd : String) (s : St) :
    (script a cwd =
      setupDependencyActs "common_system" commonUrl (commonInstall a) a.buildType
        (commonArgs a) cwd ++
      (setupDependencyActs "thread_system" threadUrl (threadInstall a) a.buildType
        (threadArgs a) cwd ++
      (Act.patchConfig (threadInstall a) ::
      setupDependencyActs "logger_system" loggerUrl (loggerInstall a) a.buildType
        (loggerArgs a) cwd))) ∧
    (∀ acts1 acts2 : List Act, execActs w (acts1 ++ acts2) s =
      match execActs w acts1 s with
      | Res.ok _ s1 => execActs w acts2 s1
      | Res.exit c s1 => Res.exit c s1) :=
  ⟨rfl, fun acts1 acts2 => execActs_append w acts1 acts2 s⟩

/-- C7: when the dependency checkout directory `workspace/<name>` already
exists, the checkout step issues no clone command and leaves the whole
state (filesystem included) untouched. -/
theorem claimC07 (w : World) (s : St) (url name workspaceDir : String)
    (h : pathJoin workspaceDir name ∈ s.fs) :
    execAct w s (Act.cloneIfAbsent (pathJoin workspaceDir name) url name workspaceDir) =
      Res.ok () s := by
  simp [execAct, h]

/-- C7 witness: a state in which `/w/thread_system` already exists. -/
theorem claimC07W :
    execAct wOk stClone
      (Act.cloneIfAbsent (pathJoin "/w" "thread_system") threadUrl "thread_system" "/w") =
      Res.ok () stClone :=
  claimC07 wOk stClone threadUrl "thread_system" "/w" (by decide)

/-- C8: on a filesystem in which files below the build directory only exist
if the build directory itself does, the fresh-build-dir step always
completes normally with the build directory existing and empty, touching
nothing else. -/
theorem claimC08 (w : World) (s : St) (d : String)
    (hwf : ∀ p ∈ s.fs, isUnder d p = true → d ∈ s.fs) :
    ∃ s', execAct w s (Act.freshBuildDir d) = Res.ok () s' ∧
      d ∈ s'.fs ∧ (∀ p ∈ s'.fs, ¬ isUnder d p = true) ∧
      s'.trace = s.trace ∧ s'.out = s.out ∧ s'.contents = s.contents := by
  refine ⟨_, rfl, List.mem_cons_self _ _, ?_, rfl, rfl, rfl⟩
  intro p hp
  rcases List.mem_cons.mp hp with hpd | hp1
  · subst hpd
    exact isUnder_self_false p
  · by_cases hd : d ∈ s.fs
    · rw [if_pos hd] at hp1
      have hpred := (List.mem_filter.mp hp1).2
      simp only [rmtree] at hpred
      simp at hpred
      simp [hpred.2]
    · rw [if_neg hd] at hp1
      intro hc
      exact hd (hwf p hp1 hc)

/-- C8 witness: a stale build directory with an old object file inside. -/
theorem claimC08W :
    ∃ s', execAct wOk stBuild (Act.freshBuildDir "/w/thread_system/build") = Res.ok () s' ∧
      "/w/thread_system/build" ∈ s'.fs ∧
      (∀ p ∈ s'.fs, ¬ isUnder "/w/thread_system/build" p = true) ∧
      s'.trace = stBuild.trace ∧ s'.out = stBuild.out ∧ s'.contents = stBuild.contents :=
  claimC08 wOk stBuild "/w/thread_system/build" (by decide)

/-- C9: the gcc-13 compiler-pinning flags are in all three configure
argument lists exactly when `--os` is `Linux` and `--compiler` is `gcc`,
and absent from all of them otherwise. -/
theorem claimC09 (a : Args) :
    (a.osName = "Linux" ∧ a.compiler = "gcc" →
      ("-DCMAKE_C_COMPILER=gcc-13" ∈ commonArgs a ∧
        "-DCMAKE_CXX_COMPILER=g++-13" ∈ commonArgs a) ∧
      ("-DCMAKE_C_COMPILER=gcc-13" ∈ threadArgs a ∧
        "-DCMAKE_CXX_COMPILER=g++-13" ∈ threadArgs a) ∧
      ("-DCMAKE_C_COMPILER=gcc-13" ∈ loggerArgs a ∧
        "-DCMAKE_CXX_COMPILER=g++-13" ∈ loggerArgs a)) ∧
    (¬(a.osName = "Linux" ∧ a.compiler = "gcc") →
      ("-DCMAKE_C_COMPILER=gcc-13" ∉ commonArgs a ∧
        "-DCMAKE_CXX_COMPILER=g++-13" ∉ commonArgs a) ∧
      ("-DCMAKE_C_COMPILER=gcc-13" ∉ threadArgs a ∧
        "-DCMAKE_CXX_COMPILER=g++-13" ∉ threadArgs a) ∧
      ("-DCMAKE_C_COMPILER=gcc-13" ∉ loggerArgs a ∧
        "-DCMAKE_CXX_COMPILER=g++-13" ∉ loggerArgs a)) := by
  constructor
  · rintro ⟨h1, h2⟩
    refine ⟨⟨?_, ?_⟩, ⟨?_, ?_⟩, ⟨?_, ?_⟩⟩ <;>
      simp [commonArgs, threadArgs, loggerArgs, baseCmakeArgs, h1, h2]
  · intro hn
    have hbase := baseCmakeArgs_of_not a hn
    have hBT : ∀ x : String, ("-DCMAKE_C_COMPILER=gcc-13" : String) ≠
        "-DCMAKE_BUILD_TYPE=" ++ x :=
      fun x => flag_ne_prefixed _ _ x (by decide)
    have hBT' : ∀ x : String, ("-DCMAKE_CXX_COMPILER=g++-13" : String) ≠
        "-DCMAKE_BUILD_TYPE=" ++ x :=
      fun x => flag_ne_prefixed _ _ x (by decide)
    have hIP : ∀ x : String, ("-DCMAKE_C_COMPILER=gcc-13" : String) ≠
        "-DCMAKE_INSTALL_PREFIX=" ++ x :=
      fun x => flag_ne_prefixed _ _ x (by decide)
    have hIP' : ∀ x : String, ("-DCMAKE_CXX_COMPILER=g++-13" : String) ≠
        "-DCMAKE_INSTALL_PREFIX=" ++ x :=
      fun x => flag_ne_prefixed _ _ x (by decide)
    have hPP : ∀ x : String, ("-DCMAKE_C_COMPILER=gcc-13" : String) ≠
        "-DCMAKE_PREFIX_PATH=" ++ x :=
      fun x => flag_ne_prefixed _ _ x (by decide)
    have hPP' : ∀ x : String, ("-DCMAKE_CXX_COMPILER=g++-13" : String) ≠
        "-DCMAKE_PREFIX_PATH=" ++ x :=
      fun x => flag_ne_prefixed _ _ x (by decide)
    have hXd : ∀ x y : String, ("-DCMAKE_C_COMPILER=gcc-13" : String) ≠
        "-DCMAKE_CXX_FLAGS=-I" ++ x ++ y :=
      fun x y => flag_ne_prefixed2 _ _ x y (by decide)
    have hXd' : ∀ x y : String, ("-DCMAKE_CXX_COMPILER=g++-13" : String) ≠
        "-DCMAKE_CXX_FLAGS=-I" ++ x ++ y :=
      fun x y => flag_ne_prefixed2 _ _ x y (by decide)
    have hXs : ∀ x y : String, ("-DCMAKE_C_COMPILER=gcc-13" : String) ≠
        "-DCMAKE_CXX_FLAGS=/I" ++ x ++ y :=
      fun x y => flag_ne_prefixed2 _ _ x y (by decide)
    have hXs' : ∀ x y : String, ("-DCMAKE_CXX_COMPILER=g++-13" : String) ≠
        "-DCMAKE_CXX_FLAGS=/I" ++ x ++ y :=
      fun x y => flag_ne_prefixed2 _ _ x y (by decide)
    have hPP3 : ∀ x y z : String, ("-DCMAKE_C_COMPILER=gcc-13" : String) ≠
        "-DCMAKE_PREFIX_PATH=" ++ x ++ y ++ z :=
      fun x y z => flag_ne_prefixed3 _ _ x y z (by decide)
    have hPP3' : ∀ x y z : String, ("-DCMAKE_CXX_COMPILER=g++-13" : String) ≠
        "-DCMAKE_PREFIX_PATH=" ++ x ++ y ++ z :=
      fun x y z => flag_ne_prefixed3 _ _ x y z (by decide)
    have hXe : ∀ x : String, ("-DCMAKE_C_COMPILER=gcc-13" : String) ≠
        "-DCMAKE_CXX_FLAGS=" ++ x :=
      fun x => flag_ne_prefixed _ _ x (by decide)
    have hXe' : ∀ x : String, ("-DCMAKE_CXX_COMPILER=g++-13" : String) ≠
        "-DCMAKE_CXX_FLAGS=" ++ x :=
      fun x => flag_ne_prefixed _ _ x (by decide)
    have hT : ("-DCMAKE_C_COMPILER=gcc-13" : String) ≠ "-DBUILD_TESTS=OFF" := by decide
    have hT' : ("-DCMAKE_CXX_COMPILER=g++-13" : String) ≠ "-DBUILD_TESTS=OFF" := by decide
    have hS : ("-DCMAKE_C_COMPILER=gcc-13" : String) ≠ "-DBUILD_SAMPLES=OFF" := by decide
    have hS' : ("-DCMAKE_CXX_COMPILER=g++-13" : String) ≠ "-DBUILD_SAMPLES=OFF" := by decide
    have hF : ("-DCMAKE_C_COMPILER=gcc-13" : String) ≠ "-DUSE_STD_FORMAT=ON" := by decide
    have hF' : ("-DCMAKE_CXX_COMPILER=g++-13" : String) ≠ "-DUSE_STD_FORMAT=ON" := by decide
    by_cases hw : a.osName = "Windows" <;>
      refine ⟨⟨?_, ?_⟩, ⟨?_, ?_⟩, ⟨?_, ?_⟩⟩ <;>
        simp [commonArgs, threadArgs, loggerArgs, hbase, hw, hBT, hBT', hIP, hIP',
          hPP, hPP', hPP3, hPP3', hXd, hXd', hXs, hXs', hXe, hXe', hT, hT', hS, hS', hF, hF']

/-- C9 witness: the Linux/gcc and Darwin/clang instantiations for the common
argument list. -/
theorem claimC09W :
    ("-DCMAKE_C_COMPILER=gcc-13" ∈ commonArgs aLin ∧
      "-DCMAKE_CXX_COMPILER=g++-13" ∈ commonArgs aLin) ∧
    ("-DCMAKE_C_COMPILER=gcc-13" ∉ commonArgs aMac ∧
      "-DCMAKE_CXX_COMPILER=g++-13" ∉ commonArgs aMac) :=
  ⟨((claimC09 aLin).1 ⟨rfl, rfl⟩).1, ((claimC09 aMac).2 (by decide)).1⟩

/-- C10: content without any `find_dependency(fmt ...)` statement is written
back unchanged, and in general every character outside the matched
statements is preserved (the decomposition reassembles to the original and
the patched output only inserts `# ` before matched statements). -/
theorem claimC10 (s : List Char) :
    ((∀ i, i < s.length → matchAt (s.drop i) = none) → pyFmtSub s = s) ∧
    renderOrig (subSplit s) = s ∧
    pyFmtSub s = renderPatched (subSplit s) :=
  ⟨fun h => pyFmtSubAux_eq_self s.length s h,
   renderOrig_subSplitAux s.length s,
   (renderPatched_subSplitAux s.length s).symm⟩

/-- C10 witness: a concrete content with no matching statement is unchanged. -/
theorem claimC10W : pyFmtSub sampleNoHit = sampleNoHit :=
  (claimC10 sampleNoHit).1 (by decide)

end SetupDependencies
